import Mathlib

/-!
Shallow embedding of the request-admission and provider-dispatch pipeline
of the tang-image repository (src/main.py and src/image_provider.py).

Python strings are modelled as Lean `String`; Python `set` as `Finset` or
`List` (with insert-if-absent); Python exceptions as an explicit outcome
type.  External library behaviour (base64 decoding, the secondary HTTP
fetch) is passed in as explicit function parameters, since it is not code
of this repository.
-/

namespace TangImage

/-- Python whitespace test, as used by str.strip and str.split
(ASCII whitespace characters). -/
def pyIsSpace (c : Char) : Bool :=
  c == ' ' || c == '\t' || c == '\n' || c == '\r' || c == '\x0b' || c == '\x0c'

/-- Python str.strip(): remove leading and trailing whitespace. -/
def pyStrip (s : String) : String :=
  ⟨((s.data.dropWhile pyIsSpace).reverse.dropWhile pyIsSpace).reverse⟩

/-- Python str.lower(), restricted to ASCII letters (all strings the code
classifies are ASCII). -/
def pyLower (s : String) : String :=
  ⟨s.data.map (fun c => if 'A' ≤ c ∧ c ≤ 'Z' then Char.ofNat (c.toNat + 32) else c)⟩

/-- Python `needle in hay` on strings: substring containment. -/
def strContains (hay needle : String) : Bool :=
  (List.range (hay.data.length + 1)).any (fun i => needle.data.isPrefixOf (hay.data.drop i))

/-- Python s.startswith(pre). -/
def pyStartsWith (s pre : String) : Bool := pre.data.isPrefixOf s.data

/-- Python text.split(maxsplit=1) with the default whitespace separator:
leading whitespace is discarded, the first whitespace-free run is the first
part, the remainder (with its own leading whitespace discarded) is the
second part when it is non-empty. -/
def pySplitMax1 (s : String) : List String :=
  let t := s.data.dropWhile pyIsSpace
  if t = [] then []
  else
    let w := t.takeWhile (fun c => !pyIsSpace c)
    let r := (t.dropWhile (fun c => !pyIsSpace c)).dropWhile pyIsSpace
    if r = [] then [⟨w⟩] else [⟨w⟩, ⟨r⟩]

/-!
Embedding of src/image_provider.py.

Every `raise ImageGenError(...)` site of the source is one constructor
below, carrying exactly the data its f-string interpolates.  Exceptions
that are not ImageGenError (the unguarded base64.b64decode in the
Stability branch, an r.json() failure in the OpenAI branch) are modelled
by the separate `GenOutcome.exn` result, since the caller catches only
ImageGenError.
-/

inductive ImageGenError
  | missingOpenAIKey
  | openaiHTTP (status : Nat) (body : String)
  | openaiNoData
  | openaiB64Decode (msg : String)
  | openaiFetch (msg : String)
  | openaiEmpty
  | missingStabilityKey
  | stabilityHTTP (status : Nat) (body : String)
  | stabilityFormat (msg : String)
  | stabilityEmpty
  | stabilityUnrecognized (ctype : String)
deriving DecidableEq

/-- The str(e) text of each raise site, rendered exactly as the f-strings of
src/image_provider.py render it. -/
def ImageGenError.message : ImageGenError → String
  | .missingOpenAIKey => "Missing OPENAI_API_KEY"
  | .openaiHTTP s b => "OpenAI error " ++ toString s ++ ": " ++ b
  | .openaiNoData => "OpenAI returned no data"
  | .openaiB64Decode m => "Failed to decode OpenAI base64 image: " ++ m
  | .openaiFetch m => "Failed to download image from OpenAI URL: " ++ m
  | .openaiEmpty => "No image payload in OpenAI response (no b64_json or url)."
  | .missingStabilityKey => "Missing STABILITY_API_KEY"
  | .stabilityHTTP s b => "Stability error " ++ toString s ++ ": " ++ b
  | .stabilityFormat m => "Unexpected Stability response format: " ++ m
  | .stabilityEmpty => "No image in Stability response"
  | .stabilityUnrecognized c => "Unrecognized Stability response type: " ++ c

/-- The error taxonomy of the specification (section 7), as a classification
of the raise sites of the source. -/
inductive ErrKind
  | providerHTTP
  | providerFetch
  | providerEmpty
  | providerUnrecognized
  | providerDecode
  | providerFormat
  | missingCredential
deriving DecidableEq

def ImageGenError.kind : ImageGenError → ErrKind
  | .missingOpenAIKey => .missingCredential
  | .openaiHTTP _ _ => .providerHTTP
  | .openaiNoData => .providerEmpty
  | .openaiB64Decode _ => .providerDecode
  | .openaiFetch _ => .providerFetch
  | .openaiEmpty => .providerEmpty
  | .missingStabilityKey => .missingCredential
  | .stabilityHTTP _ _ => .providerHTTP
  | .stabilityFormat _ => .providerFormat
  | .stabilityEmpty => .providerEmpty
  | .stabilityUnrecognized _ => .providerUnrecognized

/-- Outcome of one provider call: returned bytes, a raised ImageGenError, or
a propagating exception that is not an ImageGenError. -/
inductive GenOutcome
  | ok (bytes : List Nat)
  | err (e : ImageGenError)
  | exn (msg : String)
deriving DecidableEq

def GenOutcome.isExn : GenOutcome → Bool
  | .exn _ => true
  | _ => false

/-- One artifact of a Stability JSON response: its optional base64 field
(arts[i].get("base64")). -/
structure StabilityArtifact where
  base64 : Option String
deriving DecidableEq

/-- The HTTP response the Stability adapter receives.  `artifactsJson` is
the result of r.json() followed by js.get("artifacts", []): `Except.error`
models r.json() raising, and a missing artifacts key is the empty list. -/
structure StabilityResponse where
  status : Nat
  bodyText : String
  contentType : String
  bodyBytes : List Nat
  artifactsJson : Except String (List StabilityArtifact)

/-- Embedding of _stability_img2img (src/image_provider.py lines 116-158),
from the api-key guard through response handling.  `b64decode` is Python
base64.b64decode: `Except.error` models it raising (which the source does
not catch here, hence `GenOutcome.exn`). -/
def _stability_img2img (b64decode : String → Except String (List Nat))
    (apiKey : String) (r : StabilityResponse) : GenOutcome :=
  if apiKey = "" then .err .missingStabilityKey
  else if r.status ≠ 200 then .err (.stabilityHTTP r.status r.bodyText)
  else if strContains r.contentType "application/json" then
    match r.artifactsJson with
    | .error e => .err (.stabilityFormat e)
    | .ok [] => .err .stabilityEmpty
    | .ok (a :: _) =>
      if a.base64.getD "" = "" then .err .stabilityEmpty
      else
        match b64decode (a.base64.getD "") with
        | .ok bs => .ok bs
        | .error m => .exn m
  else if pyStartsWith r.contentType "image/" then .ok r.bodyBytes
  else .err (.stabilityUnrecognized r.contentType)

/-- One element of the data list of an OpenAI images response. -/
structure OpenAIItem where
  b64_json : Option String
  url : Option String
deriving DecidableEq

/-- The HTTP response the OpenAI adapter receives. `dataJson` is the result
of r.json() followed by js.get("data"): `Except.error` models r.json()
raising (not caught in the source, hence `GenOutcome.exn` below), and a
missing or empty data list is `[]`. -/
structure OpenAIResponse where
  status : Nat
  bodyText : String
  dataJson : Except String (List OpenAIItem)

/-- Embedding of _openai_img_edit (src/image_provider.py lines 54-110), from
the api-key guard through response handling.  `b64decode` is Python
base64.b64decode (here the source wraps it and re-raises ImageGenError);
`fetch` is the secondary GET for the temporary URL, `Except.error` carrying
the text of whatever exception it raised. -/
def _openai_img_edit (b64decode : String → Except String (List Nat))
    (fetch : String → Except String (List Nat))
    (apiKey : String) (r : OpenAIResponse) : GenOutcome :=
  if apiKey = "" then .err .missingOpenAIKey
  else if r.status ≠ 200 then .err (.openaiHTTP r.status r.bodyText)
  else
    match r.dataJson with
    | .error e => .exn e
    | .ok [] => .err .openaiNoData
    | .ok (first :: _) =>
      if first.b64_json.getD "" ≠ "" then
        match b64decode (first.b64_json.getD "") with
        | .ok bs => .ok bs
        | .error m => .err (.openaiB64Decode m)
      else if first.url.getD "" ≠ "" then
        match fetch (first.url.getD "") with
        | .ok bs => .ok bs
        | .error m => .err (.openaiFetch m)
      else .err .openaiEmpty

/-- Embedding of _prepend_prefix (src/image_provider.py lines 34-38); the
first argument is the module constant DEFAULT_PROMPT_PREFIX (stripped at
load time by the source). -/
def _prepend_prefix_fn (defaultPromptPfx : String) (prompt : String) : String :=
  if defaultPromptPfx ≠ "" then pyStrip (defaultPromptPfx ++ " " ++ prompt)
  else prompt

/-- Module-level provider configuration of src/image_provider.py, resolved
once at startup and immutable. -/
structure ProviderConfig where
  PROVIDER : String
  defaultPromptPfx : String
  OPENAI_API_KEY : String
  STABILITY_API_KEY : String

/-- The external world one generation call touches: the stdlib b64 decoder,
the secondary fetch, and the two possible provider responses. -/
structure ProviderEnv where
  b64decode : String → Except String (List Nat)
  fetch : String → Except String (List Nat)
  stResp : StabilityResponse
  oaResp : OpenAIResponse

/-- Embedding of generate_image_from_reference (src/image_provider.py lines
40-48).  Returns the full prompt it dispatched together with the outcome. -/
def generate_image_from_reference (cfg : ProviderConfig) (env : ProviderEnv)
    (prompt : String) : String × GenOutcome :=
  let full_prompt := _prepend_prefix_fn cfg.defaultPromptPfx prompt
  if cfg.PROVIDER = "stability" then
    (full_prompt, _stability_img2img env.b64decode cfg.STABILITY_API_KEY env.stResp)
  else
    (full_prompt, _openai_img_edit env.b64decode env.fetch cfg.OPENAI_API_KEY env.oaResp)

/-!
Embedding of src/main.py: the de-duplication guard, the access guard, the
command/text handlers, and the per-message reply pipeline.  Each handler is
a function from the process state and the inbound message to the replies it
sends plus the new state; the provider call inside _generate_and_reply is
abstracted by a `GenOutcome` parameter (the stubbed provider result).
-/

def _MAX_SEEN : Nat := 5000

/-- The process-wide dedup window: _SEEN_MSGS (a set) and _SEEN_ORDER (a
deque, tail = most recent). -/
structure DedupState where
  seenMsgs : Finset (Int × Int)
  seenOrder : List (Int × Int)

def dedupInit : DedupState := ⟨∅, []⟩

/-- Embedding of _already_processed (src/main.py lines 79-91) on a message
key (chat.id, message_id): returns whether the key was already present, and
the updated window (append new keys; evict the head when the deque exceeds
_MAX_SEEN, discarding it from the set too). -/
def _already_processed (st : DedupState) (key : Int × Int) : Bool × DedupState :=
  if key ∈ st.seenMsgs then (true, st)
  else
    let msgs := insert key st.seenMsgs
    let order := st.seenOrder ++ [key]
    if _MAX_SEEN < order.length then
      (false, ⟨msgs.erase order.headI, order.tail⟩)
    else
      (false, ⟨msgs, order⟩)

/-- Conversation kinds of the transport (telegram.constants.ChatType);
`privateChat` is PRIVATE (a one-to-one conversation), `channel` is a
broadcast channel. -/
inductive ChatType
  | privateChat
  | group
  | supergroup
  | channel
deriving DecidableEq

/-- One inbound message: update.message together with the requester id
update.effective_user.id. -/
structure Msg where
  chatId : Int
  messageId : Int
  chatType : ChatType
  text : Option String
  userId : Int
deriving DecidableEq

/-- _already_processed applied to a whole update: an update with no message
(for example a broadcast channel_post, which the transport does not place in
update.message) returns False and records nothing. -/
def _already_processed_upd (st : DedupState) (message : Option Msg) : Bool × DedupState :=
  match message with
  | none => (false, st)
  | some m => _already_processed st (m.chatId, m.messageId)

/-- Startup configuration of src/main.py, immutable after load: _allow_ids
(parsed from ALLOW_USER_IDS) and ACCESS_CODE (stripped at load time). -/
structure BotConfig where
  allowIds : List Int
  ACCESS_CODE : String
deriving DecidableEq

/-- Mutable process state: the dedup window and _redeemed_ids. -/
structure BotState where
  dedup : DedupState
  redeemedIds : List Int

/-- Python set.add on the list model of _redeemed_ids. -/
def insertId (x : Int) (l : List Int) : List Int := if x ∈ l then l else x :: l

/-- Embedding of _is_allowed_user (src/main.py lines 96-106). -/
def _is_allowed_user (cfg : BotConfig) (redeemed : List Int) (user_id : Int) : Bool :=
  if cfg.allowIds ≠ [] then
    if user_id ∈ cfg.allowIds then true
    else if cfg.ACCESS_CODE ≠ "" ∧ user_id ∈ redeemed then true
    else false
  else if cfg.ACCESS_CODE ≠ "" then decide (user_id ∈ redeemed)
  else true

/-- Embedding of extract_pic_prompt (src/main.py lines 108-119), taking
update.message.text. -/
def extract_pic_prompt (msgText : Option String) : String :=
  let text := pyStrip (msgText.getD "")
  if text = "" then ""
  else
    match pySplitMax1 text with
    | [] => ""
    | p :: rest =>
      if pyStartsWith p "/pic" then
        match rest with
        | [] => ""
        | q :: _ => pyStrip q
      else ""

/-- One outbound reply to the requester. -/
inductive Reply
  | text (s : String)
  | photo (bytes : List Nat) (caption : String)
deriving DecidableEq

/-- What one handler invocation produced: the replies it sent, and the user
prompts it dispatched to the generation dispatcher (empty = no provider
call). -/
structure StepOut where
  replies : List Reply
  genPrompts : List String
deriving DecidableEq

def USAGE_PIC : String := "Usage: `/pic <your prompt>`"
def RESTRICTED_WITH_CODE_PIC : String :=
  "🔒 Access restricted. If you have a code, DM me and send `/redeem <CODE>`."
def RESTRICTED_WITH_CODE_TEXT : String :=
  "🔒 Access restricted. If you have a code, send `/redeem <CODE>`."
def RESTRICTED_PLAIN : String := "🔒 Access restricted."
def CONTENT_RESTRICTED_NOTICE : String :=
  "🚫 Sorry, this image can’t be generated due to copyright or content restrictions."
def TRANSIENT_FAILURE_NOTICE : String :=
  "⚠️ Something went wrong while generating the image. Please try again later."

/-- The keyword sniff of _generate_and_reply on str(e).lower(). -/
def moderationSniff (errMessage : String) : Bool :=
  let err_text := pyLower errMessage
  strContains err_text "moderation" || strContains err_text "safety" ||
    strContains err_text "rejected"

/-- Embedding of _generate_and_reply (src/main.py lines 166-181): `gen` is
the outcome of the awaited generate_image_from_reference call.  On success
one photo reply; on a caught ImageGenError exactly one of two fixed notices,
chosen by the keyword sniff; a non-ImageGenError exception propagates with
no reply.  In every case the provider was called once with `user_prompt`. -/
def _generate_and_reply (gen : GenOutcome) (user_prompt : String) : StepOut :=
  match gen with
  | .ok out_png => ⟨[.photo out_png ("✅ Done!\nPrompt: " ++ user_prompt)], [user_prompt]⟩
  | .err e =>
    if moderationSniff e.message then
      ⟨[.text CONTENT_RESTRICTED_NOTICE], [user_prompt]⟩
    else
      ⟨[.text TRANSIENT_FAILURE_NOTICE], [user_prompt]⟩
  | .exn _ => ⟨[], [user_prompt]⟩

/-- Embedding of pic_cmd (src/main.py lines 183-201). -/
def pic_cmd (cfg : BotConfig) (gen : GenOutcome) (st : BotState) (m : Msg) :
    StepOut × BotState :=
  let r := _already_processed_upd st.dedup (some m)
  let st' : BotState := ⟨r.2, st.redeemedIds⟩
  if r.1 then (⟨[], []⟩, st')
  else if !(_is_allowed_user cfg st.redeemedIds m.userId) then
    if cfg.ACCESS_CODE ≠ "" then (⟨[.text RESTRICTED_WITH_CODE_PIC], []⟩, st')
    else (⟨[.text RESTRICTED_PLAIN], []⟩, st')
  else
    let user_prompt := extract_pic_prompt m.text
    if user_prompt = "" then (⟨[.text USAGE_PIC], []⟩, st')
    else (_generate_and_reply gen user_prompt, st')

/-- Embedding of handle_text (src/main.py lines 203-227).  The update may
carry no message (update.message is None for channel_post deliveries): then
nothing is recorded and nothing is sent. -/
def handle_text (cfg : BotConfig) (gen : GenOutcome) (st : BotState)
    (message : Option Msg) : StepOut × BotState :=
  let r := _already_processed_upd st.dedup message
  let st' : BotState := ⟨r.2, st.redeemedIds⟩
  if r.1 then (⟨[], []⟩, st')
  else
    match message with
    | none => (⟨[], []⟩, st')
    | some m =>
      if m.text.getD "" = "" then (⟨[], []⟩, st')
      else if m.chatType = .group ∨ m.chatType = .supergroup then (⟨[], []⟩, st')
      else if !(_is_allowed_user cfg st.redeemedIds m.userId) then
        if cfg.ACCESS_CODE ≠ "" then (⟨[.text RESTRICTED_WITH_CODE_TEXT], []⟩, st')
        else (⟨[.text RESTRICTED_PLAIN], []⟩, st')
      else
        let user_prompt := pyStrip (m.text.getD "")
        if user_prompt = "" ∨ pyStartsWith user_prompt "/" then (⟨[], []⟩, st')
        else (_generate_and_reply gen user_prompt, st')

/-- Embedding of redeem_cmd (src/main.py lines 149-164). -/
def redeem_cmd (cfg : BotConfig) (st : BotState) (m : Msg) : StepOut × BotState :=
  let r := _already_processed_upd st.dedup (some m)
  let st' : BotState := ⟨r.2, st.redeemedIds⟩
  if r.1 then (⟨[], []⟩, st')
  else if cfg.ACCESS_CODE = "" then (⟨[.text "Redeem not required."], []⟩, st')
  else
    match pySplitMax1 (m.text.getD "") with
    | [] => (⟨[.text "Usage: /redeem <CODE>"], []⟩, st')
    | [_] => (⟨[.text "Usage: /redeem <CODE>"], []⟩, st')
    | _ :: codeArg :: _ =>
      let code := pyStrip codeArg
      if code = cfg.ACCESS_CODE then
        (⟨[.text "✅ Access unlocked!"], []⟩, ⟨r.2, insertId m.userId st.redeemedIds⟩)
      else (⟨[.text "❌ Invalid code."], []⟩, st')

/-- Embedding of start_cmd, help_cmd, info_cmd and status_cmd (src/main.py
lines 124-147), which differ only in the text they reply: dedup check, then
one text reply. -/
def simple_cmd (replyText : String) (st : BotState) (m : Msg) : StepOut × BotState :=
  let r := _already_processed_upd st.dedup (some m)
  let st' : BotState := ⟨r.2, st.redeemedIds⟩
  if r.1 then (⟨[], []⟩, st')
  else (⟨[.text replyText], []⟩, st')

/-- One inbound delivery, tagged by the handler the transport routes it to;
generation outcomes are carried as the provider stub for that delivery. -/
inductive Event
  | simple (replyText : String) (m : Msg)
  | redeem (m : Msg)
  | pic (gen : GenOutcome) (m : Msg)
  | freeText (gen : GenOutcome) (message : Option Msg)

def stepEvent (cfg : BotConfig) (st : BotState) : Event → StepOut × BotState
  | .simple t m => simple_cmd t st m
  | .redeem m => redeem_cmd cfg st m
  | .pic gen m => pic_cmd cfg gen st m
  | .freeText gen message => handle_text cfg gen st message

def runEvents (cfg : BotConfig) (st : BotState) (evs : List Event) : BotState :=
  evs.foldl (fun s ev => (stepEvent cfg s ev).2) st

/-- Repeated dedup checks: fold _already_processed over a list of keys,
keeping the final window. -/
def processAll (st : DedupState) (ks : List (Int × Int)) : DedupState :=
  ks.foldl (fun s k => (_already_processed s k).2) st

/-- The dedup window invariant (spec section 3, DedupWindow): the deque has
no duplicates, the set holds exactly its members, and its size is at most
_MAX_SEEN. -/
def DedupInv (st : DedupState) : Prop :=
  st.seenOrder.Nodup ∧ st.seenMsgs = st.seenOrder.toFinset ∧
    st.seenOrder.length ≤ _MAX_SEEN

/-- Stand-in for Python base64.b64decode in concrete instantiations. -/
def b64StubC5 : String → Except String (List Nat) := fun _ => .ok []

def b64StubC6 : String → Except String (List Nat) := fun _ => .ok []

/-- Stand-in secondary fetch returning fixed bytes. -/
def fetchStubC6 : String → Except String (List Nat) := fun _ => .ok [7]

/-- Concrete fixtures used to instantiate the theorems below. -/
def cfgOpenW : BotConfig := ⟨[], ""⟩

def cfgCodeW : BotConfig := ⟨[], "SECRET"⟩

def stFreshW : BotState := ⟨dedupInit, []⟩

def msgPicW : Msg := ⟨10, 20, .privateChat, some "/pic a red bicycle", 5⟩

def msgGroupW : Msg := ⟨1, 2, .group, some "hello", 5⟩

def msgDmW : Msg := ⟨1, 3, .privateChat, some " draw a cat ", 5⟩

def msgPicEmptyW : Msg := ⟨4, 5, .privateChat, some "/pic", 5⟩

def msgRedeemW : Msg := ⟨2, 3, .privateChat, some "/redeem SECRET", 7⟩

def msgWsW : Msg := ⟨1, 1, .privateChat, some " ", 5⟩

/-- _MAX_SEEN further distinct keys, none equal to (0, 0). -/
def tailKeys : List (Int × Int) :=
  (List.range _MAX_SEEN).map (fun i : Nat => ((i : Int) + 1, (0 : Int)))

/-!
Helper lemmas about the de-duplication guard, shared by the claims below.
-/

theorem headI_append_singleton {α} [Inhabited α] (l : List α) (a : α) (h : l ≠ []) :
    (l ++ [a]).headI = l.headI := by
  cases l with
  | nil => exact absurd rfl h
  | cons x xs => rfl

theorem tail_append_singleton {α} (l : List α) (a : α) (h : l ≠ []) :
    (l ++ [a]).tail = l.tail ++ [a] := by
  cases l with
  | nil => exact absurd rfl h
  | cons x xs => rfl

theorem already_processed_of_mem (st : DedupState) (k : Int × Int) (h : k ∈ st.seenMsgs) :
    _already_processed st k = (true, st) := by
  simp [_already_processed, h]

theorem already_processed_of_not_mem_small (st : DedupState) (k : Int × Int)
    (hk : k ∉ st.seenMsgs) (hl : ¬ _MAX_SEEN < st.seenOrder.length + 1) :
    _already_processed st k = (false, ⟨insert k st.seenMsgs, st.seenOrder ++ [k]⟩) := by
  simp [_already_processed, hk, hl]

theorem already_processed_of_not_mem_evict (st : DedupState) (k : Int × Int)
    (hk : k ∉ st.seenMsgs) (hl : _MAX_SEEN < st.seenOrder.length + 1) :
    _already_processed st k =
      (false, ⟨(insert k st.seenMsgs).erase (st.seenOrder ++ [k]).headI,
               (st.seenOrder ++ [k]).tail⟩) := by
  simp [_already_processed, hk, hl]

theorem already_processed_fst_of_not_mem (st : DedupState) (k : Int × Int)
    (hk : k ∉ st.seenMsgs) : (_already_processed st k).1 = false := by
  by_cases hl : _MAX_SEEN < st.seenOrder.length + 1
  · rw [already_processed_of_not_mem_evict st k hk hl]
  · rw [already_processed_of_not_mem_small st k hk hl]

theorem dedupInv_init : DedupInv dedupInit := by
  refine ⟨List.nodup_nil, ?_, ?_⟩ <;> simp [dedupInit, _MAX_SEEN]

theorem dedupInv_step (st : DedupState) (k : Int × Int) (h : DedupInv st) :
    DedupInv (_already_processed st k).2 := by
  obtain ⟨hnd, hms, hlen⟩ := h
  by_cases hk : k ∈ st.seenMsgs
  · rw [already_processed_of_mem st k hk]; exact ⟨hnd, hms, hlen⟩
  · have hko : k ∉ st.seenOrder := by
      intro hmem; exact hk (by rw [hms]; exact List.mem_toFinset.2 hmem)
    by_cases hl : _MAX_SEEN < st.seenOrder.length + 1
    · have hlen' : st.seenOrder.length = _MAX_SEEN := by omega
      have hne : st.seenOrder ≠ [] := by
        intro he; rw [he] at hlen'; simp [_MAX_SEEN] at hlen'
      rw [already_processed_of_not_mem_evict st k hk hl]
      obtain ⟨h0, t, horder⟩ := List.exists_cons_of_ne_nil hne
      have hh0t : h0 ∉ t := by
        rw [horder] at hnd; exact (List.nodup_cons.1 hnd).1
      have hndt : t.Nodup := by
        rw [horder] at hnd; exact (List.nodup_cons.1 hnd).2
      have hkh0 : k ≠ h0 := by
        intro he; rw [horder] at hko; exact hko (he ▸ List.mem_cons_self _ _)
      have hkt : k ∉ t := by
        intro hx; rw [horder] at hko; exact hko (List.mem_cons_of_mem _ hx)
      rw [horder] at hlen'
      refine ⟨?_, ?_, ?_⟩
      · show ((st.seenOrder ++ [k]).tail).Nodup
        rw [tail_append_singleton _ _ hne, horder]
        simp [List.nodup_append, hndt, hkt]
      · show (insert k st.seenMsgs).erase (st.seenOrder ++ [k]).headI
            = ((st.seenOrder ++ [k]).tail).toFinset
        rw [tail_append_singleton _ _ hne, headI_append_singleton _ _ hne, hms, horder]
        simp only [List.headI, List.tail_cons, List.toFinset_cons, List.toFinset_append]
        rw [Finset.Insert.comm]
        rw [Finset.erase_insert (by
          intro hx
          rcases Finset.mem_insert.1 hx with he | hm
          · exact hkh0 he.symm
          · exact hh0t (List.mem_toFinset.1 hm))]
        simp [Finset.insert_eq, Finset.union_comm]
      · show ((st.seenOrder ++ [k]).tail).length ≤ _MAX_SEEN
        rw [tail_append_singleton _ _ hne, horder]
        simp only [List.tail_cons, List.length_append, List.length_cons] at hlen' ⊢
        simp at hlen' ⊢
        omega
    · rw [already_processed_of_not_mem_small st k hk hl]
      refine ⟨?_, ?_, ?_⟩
      · show (st.seenOrder ++ [k]).Nodup
        simp [List.nodup_append, hnd, hko]
      · show insert k st.seenMsgs = (st.seenOrder ++ [k]).toFinset
        rw [hms]
        simp [List.toFinset_append, Finset.insert_eq, Finset.union_comm]
      · show (st.seenOrder ++ [k]).length ≤ _MAX_SEEN
        simp only [List.length_append, List.length_cons]
        simp
        omega

theorem dedupInv_processAll (st : DedupState) (ks : List (Int × Int)) (h : DedupInv st) :
    DedupInv (processAll st ks) := by
  induction ks generalizing st with
  | nil => exact h
  | cons k ks ih =>
    have : processAll st (k :: ks) = processAll (_already_processed st k).2 ks := rfl
    rw [this]
    exact ih _ (dedupInv_step st k h)

theorem processAll_append_single (st : DedupState) (ks : List (Int × Int)) (k : Int × Int) :
    processAll st (ks ++ [k]) = (_already_processed (processAll st ks) k).2 := by
  simp [processAll, List.foldl_append]

theorem processAll_order_char (ks : List (Int × Int)) (h : ks.Nodup) :
    (processAll dedupInit ks).seenOrder = ks.drop (ks.length - _MAX_SEEN) := by
  induction ks using List.reverseRecOn with
  | nil => simp [processAll, dedupInit]
  | append_singleton l a ih =>
    have hl : l.Nodup := (List.nodup_append.1 h).1
    have ha : a ∉ l := by
      intro hmem
      exact (List.nodup_append.1 h).2.2 hmem (List.mem_singleton_self a)
    have hinv := dedupInv_processAll dedupInit l dedupInv_init
    obtain ⟨hnd, hms, hlen⟩ := hinv
    have hord := ih hl
    have hmem : a ∉ (processAll dedupInit l).seenMsgs := by
      rw [hms]; intro hx
      exact ha (List.mem_of_mem_drop (hord ▸ List.mem_toFinset.1 hx))
    rw [processAll_append_single]
    have hM : _MAX_SEEN = 5000 := rfl
    have hlength : (processAll dedupInit l).seenOrder.length
        = l.length - (l.length - _MAX_SEEN) := by
      rw [hord]; simp [List.length_drop]
    by_cases hc : _MAX_SEEN < (processAll dedupInit l).seenOrder.length + 1
    · have h1 : _MAX_SEEN ≤ l.length := by omega
      have h2 : (processAll dedupInit l).seenOrder.length = _MAX_SEEN := by omega
      have hne : (processAll dedupInit l).seenOrder ≠ [] := by
        intro he; rw [he] at h2; simp [_MAX_SEEN] at h2
      rw [already_processed_of_not_mem_evict _ a hmem hc]
      show ((processAll dedupInit l).seenOrder ++ [a]).tail
          = (l ++ [a]).drop ((l ++ [a]).length - _MAX_SEEN)
      rw [tail_append_singleton _ _ hne, hord, List.tail_drop]
      have h3 : (l ++ [a]).length - _MAX_SEEN = (l.length - _MAX_SEEN) + 1 := by
        simp only [List.length_append, List.length_cons, List.length_nil]
        omega
      rw [h3, List.drop_append_of_le_length (by omega)]
    · rw [already_processed_of_not_mem_small _ a hmem hc]
      show (processAll dedupInit l).seenOrder ++ [a]
          = (l ++ [a]).drop ((l ++ [a]).length - _MAX_SEEN)
      have h1 : l.length < _MAX_SEEN := by omega
      have h2 : (l ++ [a]).length - _MAX_SEEN = 0 := by
        simp only [List.length_append, List.length_cons, List.length_nil]
        omega
      have h4 : l.length - _MAX_SEEN = 0 := by omega
      rw [h2, List.drop_zero, hord, h4, List.drop_zero]

theorem processAll_cons_5001 (k0 : Int × Int) (ks : List (Int × Int))
    (hnd : (k0 :: ks).Nodup) (hlen : (k0 :: ks).length = _MAX_SEEN + 1) :
    (processAll dedupInit (k0 :: ks)).seenOrder = ks ∧
    (processAll dedupInit (k0 :: ks)).seenMsgs = ks.toFinset ∧
    k0 ∉ (processAll dedupInit (k0 :: ks)).seenMsgs := by
  have hord := processAll_order_char (k0 :: ks) hnd
  have hlen2 : (k0 :: ks).length - _MAX_SEEN = 1 := by omega
  rw [hlen2] at hord
  simp only [List.drop_succ_cons, List.drop_zero] at hord
  have hinv := dedupInv_processAll dedupInit (k0 :: ks) dedupInv_init
  obtain ⟨_, hms, _⟩ := hinv
  have hk0 : k0 ∉ ks := (List.nodup_cons.1 hnd).1
  refine ⟨hord, by rw [hms, hord], ?_⟩
  rw [hms, hord]
  intro hx
  exact hk0 (List.mem_toFinset.1 hx)

/-!
String-manipulation and handler helper lemmas.
-/

theorem length_dropWhile_le_len {α} (p : α → Bool) (l : List α) :
    (l.dropWhile p).length ≤ l.length := by
  induction l with
  | nil => simp
  | cons a l ih =>
    rw [List.dropWhile_cons]
    split
    · exact le_trans ih (by simp)
    · simp

theorem dropWhile_of_length_eq {α} (p : α → Bool) (l : List α)
    (h : (l.dropWhile p).length = l.length) : l.dropWhile p = l := by
  induction l with
  | nil => simp
  | cons a l ih =>
    by_cases hpa : p a = true
    · rw [List.dropWhile_cons, if_pos hpa] at h ⊢
      have hle := length_dropWhile_le_len p l
      simp at h
      omega
    · rw [List.dropWhile_cons, if_neg hpa]

theorem stripped_dropWhile (s : String) (h : pyStrip s = s) :
    s.data.dropWhile pyIsSpace = s.data := by
  have hdata : ((s.data.dropWhile pyIsSpace).reverse.dropWhile pyIsSpace).reverse = s.data := by
    have := congrArg String.data h
    simpa [pyStrip] using this
  have h1 := length_dropWhile_le_len pyIsSpace s.data
  have h2 := length_dropWhile_le_len pyIsSpace (s.data.dropWhile pyIsSpace).reverse
  have h3 := congrArg List.length hdata
  simp only [List.length_reverse] at h2 h3
  apply dropWhile_of_length_eq
  omega

theorem pySplitMax1_redeem (c : String) (hne : c.data ≠ [])
    (hstrip : c.data.dropWhile pyIsSpace = c.data) :
    pySplitMax1 ("/redeem " ++ c) = ["/redeem", c] := by
  have hd : ("/redeem " ++ c).data
      = '/' :: 'r' :: 'e' :: 'd' :: 'e' :: 'e' :: 'm' :: ' ' :: c.data := rfl
  have c1 : pyIsSpace '/' = false := by decide
  have c2 : pyIsSpace 'r' = false := by decide
  have c3 : pyIsSpace 'e' = false := by decide
  have c4 : pyIsSpace 'd' = false := by decide
  have c5 : pyIsSpace 'm' = false := by decide
  have c6 : pyIsSpace ' ' = true := by decide
  rw [pySplitMax1, hd]
  simp only [List.dropWhile_cons, List.takeWhile_cons, c1, c2, c3, c4, c5, c6,
    Bool.not_false, Bool.not_true, if_true, if_false, Bool.false_eq_true, ite_false, ite_true]
  rw [hstrip]
  simp [hne]

theorem mem_insertId_iff (x y : Int) (l : List Int) :
    y ∈ insertId x l ↔ y = x ∨ y ∈ l := by
  simp only [insertId]
  split_ifs with h
  · constructor
    · exact Or.inr
    · rintro (rfl | hy)
      · exact h
      · exact hy
  · simp [List.mem_cons]

theorem subset_insertId (x : Int) (l : List Int) : l ⊆ insertId x l := by
  intro y hy
  rw [mem_insertId_iff]
  exact Or.inr hy

theorem is_allowed_iff (cfg : BotConfig) (red : List Int) (uid : Int) :
    _is_allowed_user cfg red uid = true ↔
      ((cfg.allowIds ≠ [] ∧ (uid ∈ cfg.allowIds ∨ (cfg.ACCESS_CODE ≠ "" ∧ uid ∈ red))) ∨
       (cfg.allowIds = [] ∧ cfg.ACCESS_CODE ≠ "" ∧ uid ∈ red) ∨
       (cfg.allowIds = [] ∧ cfg.ACCESS_CODE = "")) := by
  unfold _is_allowed_user
  split_ifs with h0 h1 h2 <;> simp_all

theorem pic_cmd_redeemed (cfg : BotConfig) (gen : GenOutcome) (st : BotState) (m : Msg) :
    (pic_cmd cfg gen st m).2.redeemedIds = st.redeemedIds := by
  simp only [pic_cmd]
  repeat (first | rfl | split)

theorem handle_text_redeemed (cfg : BotConfig) (gen : GenOutcome) (st : BotState)
    (message : Option Msg) :
    (handle_text cfg gen st message).2.redeemedIds = st.redeemedIds := by
  simp only [handle_text]
  repeat (first | rfl | split)

theorem simple_cmd_redeemed (t : String) (st : BotState) (m : Msg) :
    (simple_cmd t st m).2.redeemedIds = st.redeemedIds := by
  simp only [simple_cmd]
  split <;> rfl

theorem redeem_cmd_redeemed_sub (cfg : BotConfig) (st : BotState) (m : Msg) :
    st.redeemedIds ⊆ (redeem_cmd cfg st m).2.redeemedIds := by
  simp only [redeem_cmd]
  split
  · exact fun y hy => hy
  split
  · exact fun y hy => hy
  split
  · exact fun y hy => hy
  · exact fun y hy => hy
  · split
    · exact subset_insertId _ _
    · exact fun y hy => hy

theorem allowed_mono (cfg : BotConfig) (red red' : List Int) (h : red ⊆ red') (uid : Int)
    (hal : _is_allowed_user cfg red uid = true) : _is_allowed_user cfg red' uid = true := by
  rw [is_allowed_iff] at hal ⊢
  rcases hal with ⟨h0, h1 | ⟨h2, h3⟩⟩ | ⟨h0, h2, h3⟩ | ⟨h0, h2⟩
  · exact Or.inl ⟨h0, Or.inl h1⟩
  · exact Or.inl ⟨h0, Or.inr ⟨h2, h h3⟩⟩
  · exact Or.inr (Or.inl ⟨h0, h2, h h3⟩)
  · exact Or.inr (Or.inr ⟨h0, h2⟩)

theorem mem_after_step (st : DedupState) (k : Int × Int) (hinv : DedupInv st)
    (hk : k ∉ st.seenMsgs) :
    k ∈ (_already_processed st k).2.seenMsgs ∧ k ∈ (_already_processed st k).2.seenOrder := by
  obtain ⟨hnd, hms, hlen⟩ := hinv
  have hko : k ∉ st.seenOrder := by
    intro hmem; exact hk (by rw [hms]; exact List.mem_toFinset.2 hmem)
  by_cases hl : _MAX_SEEN < st.seenOrder.length + 1
  · have hlen' : st.seenOrder.length = _MAX_SEEN := by omega
    have hne : st.seenOrder ≠ [] := by
      intro he; rw [he] at hlen'; simp [_MAX_SEEN] at hlen'
    rw [already_processed_of_not_mem_evict st k hk hl]
    have hhead : (st.seenOrder ++ [k]).headI = st.seenOrder.headI :=
      headI_append_singleton _ _ hne
    have hheadmem : st.seenOrder.headI ∈ st.seenOrder := by
      obtain ⟨h0, t, horder⟩ := List.exists_cons_of_ne_nil hne
      rw [horder]; exact List.mem_cons_self _ _
    have hne2 : k ≠ st.seenOrder.headI := by
      intro he; exact hko (he ▸ hheadmem)
    constructor
    · show k ∈ ((insert k st.seenMsgs).erase (st.seenOrder ++ [k]).headI)
      rw [hhead, Finset.mem_erase]
      exact ⟨hne2, Finset.mem_insert_self _ _⟩
    · show k ∈ (st.seenOrder ++ [k]).tail
      rw [tail_append_singleton _ _ hne]
      simp
  · rw [already_processed_of_not_mem_small st k hk hl]
    exact ⟨Finset.mem_insert_self _ _, by simp⟩

theorem pic_cmd_dup (cfg : BotConfig) (gen : GenOutcome) (st : BotState) (m : Msg)
    (h : (m.chatId, m.messageId) ∈ st.dedup.seenMsgs) :
    (pic_cmd cfg gen st m).1 = ⟨[], []⟩ := by
  simp [pic_cmd, _already_processed_upd, already_processed_of_mem _ _ h]


/-!
The claims.
-/

/-- C1: for any identity k = (chat id, message id), the first seen check
records k in both the set and the deque and returns false; while k is in the
window every further check returns true and leaves the state unchanged; so
processing the same /pic delivery twice produces exactly one reply in total
(given a provider stub that returns bytes or raises ImageGenError). -/
theorem dedup_guard_single_reply :
    (∀ st k, DedupInv st → k ∉ st.seenMsgs →
       (_already_processed st k).1 = false ∧
       k ∈ (_already_processed st k).2.seenMsgs ∧
       k ∈ (_already_processed st k).2.seenOrder) ∧
    (∀ st k, k ∈ st.seenMsgs → _already_processed st k = (true, st)) ∧
    (∀ cfg gen st (m : Msg), DedupInv st.dedup →
       (m.chatId, m.messageId) ∉ st.dedup.seenMsgs →
       gen.isExn = false →
       (pic_cmd cfg gen st m).1.replies.length = 1 ∧
       (pic_cmd cfg gen ((pic_cmd cfg gen st m).2) m).1 = ⟨[], []⟩) := by
  refine ⟨?_, already_processed_of_mem, ?_⟩
  · intro st k hinv hk
    exact ⟨already_processed_fst_of_not_mem st k hk, mem_after_step st k hinv hk⟩
  · intro cfg gen st m hinv hk hexn
    have hfst : (_already_processed st.dedup (m.chatId, m.messageId)).1 = false :=
      already_processed_fst_of_not_mem _ _ hk
    constructor
    · simp only [pic_cmd, _already_processed_upd, hfst, Bool.false_eq_true, if_false]
      split_ifs <;> try rfl
      cases gen with
      | ok bs => rfl
      | err e =>
        simp only [_generate_and_reply]
        split_ifs <;> rfl
      | exn msg => exact absurd hexn (by simp [GenOutcome.isExn])
    · have hdedup : (pic_cmd cfg gen st m).2.dedup
          = (_already_processed st.dedup (m.chatId, m.messageId)).2 := by
        simp only [pic_cmd, _already_processed_upd]
        repeat (first | rfl | split)
      have hmem : (m.chatId, m.messageId) ∈ (pic_cmd cfg gen st m).2.dedup.seenMsgs := by
        rw [hdedup]
        exact (mem_after_step st.dedup _ hinv hk).1
      exact pic_cmd_dup cfg gen _ m hmem

theorem dedup_guard_single_reply_witness :
    (pic_cmd cfgOpenW (.ok [9]) stFreshW msgPicW).1.replies.length = 1 ∧
    (pic_cmd cfgOpenW (.ok [9]) ((pic_cmd cfgOpenW (.ok [9]) stFreshW msgPicW).2) msgPicW).1
      = ⟨[], []⟩ :=
  dedup_guard_single_reply.2.2 cfgOpenW (.ok [9]) stFreshW msgPicW dedupInv_init
    (by decide) (by decide)

/-- C2: the dedup window invariant (set and deque hold the same identities,
no duplicates, size at most _MAX_SEEN) is preserved by every seen check;
when an insertion pushes the deque past _MAX_SEEN exactly the oldest (head)
entry is removed from both structures in FIFO order; after inserting
_MAX_SEEN + 1 distinct identities from the empty window, the first inserted
identity is no longer reported as seen and exactly _MAX_SEEN identities
remain tracked. -/
theorem dedup_window_invariant_fifo :
    (∀ st k, DedupInv st → DedupInv (_already_processed st k).2) ∧
    (∀ st k, DedupInv st → k ∉ st.seenMsgs → st.seenOrder.length = _MAX_SEEN →
       (_already_processed st k).2.seenOrder = st.seenOrder.tail ++ [k] ∧
       st.seenOrder.headI ∉ (_already_processed st k).2.seenMsgs ∧
       (_already_processed st k).2.seenOrder.length = _MAX_SEEN) ∧
    (∀ (k0 : Int × Int) (ks : List (Int × Int)), (k0 :: ks).Nodup →
       (k0 :: ks).length = _MAX_SEEN + 1 →
       (_already_processed (processAll dedupInit (k0 :: ks)) k0).1 = false ∧
       k0 ∉ (processAll dedupInit (k0 :: ks)).seenMsgs ∧
       (processAll dedupInit (k0 :: ks)).seenOrder.length = _MAX_SEEN ∧
       (processAll dedupInit (k0 :: ks)).seenMsgs.card = _MAX_SEEN) := by
  refine ⟨dedupInv_step, ?_, ?_⟩
  · intro st k hinv hk hlen
    have hl : _MAX_SEEN < st.seenOrder.length + 1 := by omega
    have hne : st.seenOrder ≠ [] := by
      intro he; rw [he] at hlen; simp [_MAX_SEEN] at hlen
    rw [already_processed_of_not_mem_evict st k hk hl]
    refine ⟨?_, ?_, ?_⟩
    · show (st.seenOrder ++ [k]).tail = st.seenOrder.tail ++ [k]
      exact tail_append_singleton _ _ hne
    · show st.seenOrder.headI ∉ (insert k st.seenMsgs).erase (st.seenOrder ++ [k]).headI
      rw [headI_append_singleton _ _ hne]
      exact Finset.not_mem_erase _ _
    · show ((st.seenOrder ++ [k]).tail).length = _MAX_SEEN
      rw [tail_append_singleton _ _ hne]
      simp only [List.length_append, List.length_tail, List.length_cons, List.length_nil]
      have : st.seenOrder.length ≠ 0 := by
        intro h; exact hne (List.length_eq_zero.1 h)
      omega
  · intro k0 ks hnd hlen
    obtain ⟨hord, hmsgs, hnotmem⟩ := processAll_cons_5001 k0 ks hnd hlen
    have hkslen : ks.length = _MAX_SEEN := by
      simp only [List.length_cons] at hlen
      omega
    refine ⟨already_processed_fst_of_not_mem _ _ hnotmem, hnotmem, ?_, ?_⟩
    · rw [hord, hkslen]
    · rw [hmsgs, List.toFinset_card_of_nodup (List.nodup_cons.1 hnd).2, hkslen]

theorem dedup_window_invariant_fifo_witness :
    (_already_processed (processAll dedupInit (((0 : Int), (0 : Int)) :: tailKeys))
        ((0 : Int), (0 : Int))).1 = false ∧
    (processAll dedupInit (((0 : Int), (0 : Int)) :: tailKeys)).seenOrder.length = _MAX_SEEN ∧
    (processAll dedupInit (((0 : Int), (0 : Int)) :: tailKeys)).seenMsgs.card = _MAX_SEEN := by
  have hinj : Function.Injective (fun i : Nat => (((i : Int) + 1, (0 : Int)) : Int × Int)) := by
    intro a b hab
    simpa using hab
  have hnd : (((0 : Int), (0 : Int)) :: tailKeys).Nodup := by
    refine List.nodup_cons.2 ⟨?_, ?_⟩
    · simp only [tailKeys, List.mem_map]
      rintro ⟨i, hi, he⟩
      rw [Prod.ext_iff] at he
      have h1 : (i : Int) + 1 = 0 := he.1
      omega
    · unfold tailKeys
      exact (List.nodup_range _).map hinj
  have hlen : (((0 : Int), (0 : Int)) :: tailKeys).length = _MAX_SEEN + 1 := by
    simp only [tailKeys, List.length_cons, List.length_map, List.length_range]
  have h := dedup_window_invariant_fifo.2.2 ((0 : Int), (0 : Int)) tailKeys hnd hlen
  exact ⟨h.1, h.2.2.1, h.2.2.2⟩

/-- C3: the ordered decision table of the access guard: with a non-empty
allow-list, allowed iff listed or (a code is configured and redeemed); with
no allow-list but a code, allowed iff redeemed, which is false until a
/redeem message by that id carrying exactly the configured code succeeds and
true for that id only afterwards; with neither, every id is allowed. -/
theorem access_guard_decision_table :
    (∀ cfg red uid, cfg.allowIds ≠ [] →
       (_is_allowed_user cfg red uid = true ↔
         (uid ∈ cfg.allowIds ∨ (cfg.ACCESS_CODE ≠ "" ∧ uid ∈ red)))) ∧
    (∀ cfg red uid, cfg.allowIds = [] → cfg.ACCESS_CODE ≠ "" →
       (_is_allowed_user cfg red uid = true ↔ uid ∈ red)) ∧
    (∀ cfg red uid, cfg.allowIds = [] → cfg.ACCESS_CODE = "" →
       _is_allowed_user cfg red uid = true) ∧
    (∀ cfg st (m : Msg), cfg.allowIds = [] → cfg.ACCESS_CODE ≠ "" →
       pyStrip cfg.ACCESS_CODE = cfg.ACCESS_CODE →
       (m.chatId, m.messageId) ∉ st.dedup.seenMsgs →
       m.text = some ("/redeem " ++ cfg.ACCESS_CODE) →
       (m.userId ∉ st.redeemedIds →
         _is_allowed_user cfg st.redeemedIds m.userId = false) ∧
       (redeem_cmd cfg st m).1.replies = [.text "✅ Access unlocked!"] ∧
       (redeem_cmd cfg st m).2.redeemedIds = insertId m.userId st.redeemedIds ∧
       _is_allowed_user cfg (redeem_cmd cfg st m).2.redeemedIds m.userId = true ∧
       (∀ j, j ∉ st.redeemedIds → j ≠ m.userId →
         _is_allowed_user cfg (redeem_cmd cfg st m).2.redeemedIds j = false)) := by
  have hback : ∀ cfg red uid, cfg.allowIds = [] → cfg.ACCESS_CODE ≠ "" →
      (_is_allowed_user cfg red uid = true ↔ uid ∈ red) := by
    intro cfg red uid h hc
    rw [is_allowed_iff]
    simp [h, hc]
  refine ⟨?_, hback, ?_, ?_⟩
  · intro cfg red uid h
    rw [is_allowed_iff]
    simp [h]
  · intro cfg red uid h hc
    rw [is_allowed_iff]
    simp [h, hc]
  · intro cfg st m hallow hcode hstrip hseen htext
    have hdne : cfg.ACCESS_CODE.data ≠ [] := by
      intro hd
      exact hcode (congrArg String.mk hd)
    have hdrop : cfg.ACCESS_CODE.data.dropWhile pyIsSpace = cfg.ACCESS_CODE.data :=
      stripped_dropWhile _ hstrip
    have hsplit := pySplitMax1_redeem cfg.ACCESS_CODE hdne hdrop
    have hfst : (_already_processed st.dedup (m.chatId, m.messageId)).1 = false :=
      already_processed_fst_of_not_mem _ _ hseen
    have hred : redeem_cmd cfg st m
        = (⟨[.text "✅ Access unlocked!"], []⟩,
           ⟨(_already_processed st.dedup (m.chatId, m.messageId)).2,
            insertId m.userId st.redeemedIds⟩) := by
      unfold redeem_cmd _already_processed_upd
      simp only [htext, Option.getD_some, hsplit, hfst, Bool.false_eq_true, if_false,
        hcode, hstrip, if_true]
    refine ⟨?_, ?_, ?_, ?_, ?_⟩
    · intro hnotred
      rw [Bool.eq_false_iff]
      intro hal
      exact hnotred ((hback cfg st.redeemedIds m.userId hallow hcode).1 hal)
    · rw [hred]
    · rw [hred]
    · rw [hback cfg _ m.userId hallow hcode, hred]
      rw [mem_insertId_iff]
      exact Or.inl rfl
    · intro j hj hji
      rw [Bool.eq_false_iff]
      intro hal
      have hm := (hback cfg _ j hallow hcode).1 hal
      rw [hred] at hm
      rcases (mem_insertId_iff _ _ _).1 hm with he | hmem
      · exact hji he
      · exact hj hmem

theorem access_guard_decision_table_witness :
    (redeem_cmd cfgCodeW stFreshW msgRedeemW).1.replies = [.text "✅ Access unlocked!"] ∧
    _is_allowed_user cfgCodeW (redeem_cmd cfgCodeW stFreshW msgRedeemW).2.redeemedIds 7
      = true := by
  have h := access_guard_decision_table.2.2.2 cfgCodeW stFreshW msgRedeemW rfl (by decide)
    (by decide) (by decide) rfl
  exact ⟨h.2.1, h.2.2.2.1⟩

/-- C4: the prompt the dispatcher hands to the selected provider is the
configured prefix plus a single separating space plus the user prompt,
trimmed, when a non-empty prefix is configured (prefix "P" and prompt "cat"
give exactly "P cat"), and the prompt unchanged otherwise. -/
theorem prompt_prefixing_policy :
    (∀ pre p, pre ≠ "" → _prepend_prefix_fn pre p = pyStrip (pre ++ " " ++ p)) ∧
    (∀ p, _prepend_prefix_fn "" p = p) ∧
    _prepend_prefix_fn "P" "cat" = "P cat" ∧
    (∀ cfg env p, (generate_image_from_reference cfg env p).1
        = _prepend_prefix_fn cfg.defaultPromptPfx p) := by
  refine ⟨?_, ?_, by decide, ?_⟩
  · intro pre p h; simp [_prepend_prefix_fn, h]
  · intro p; simp [_prepend_prefix_fn]
  · intro cfg env p
    by_cases hc : cfg.PROVIDER = "stability" <;>
      simp [generate_image_from_reference, hc]

theorem prompt_prefixing_policy_witness :
    _prepend_prefix_fn "P" "cat" = pyStrip ("P" ++ " " ++ "cat") :=
  prompt_prefixing_policy.1 "P" "cat" (by decide)

/-- C5 (amended): the Stability adapter fails with the ProviderHTTP-kind
error carrying status and body text on every non-200 response; on 200 with a
JSON content type it returns the base64-decoded first artifact when the
artifacts list is non-empty and its first artifact has a non-empty base64
field that decodes, and fails with the ProviderEmpty-kind error when the
list is empty or the first base64 field is missing or empty; an image/*
content type returns the body bytes verbatim; any other content type fails
with the ProviderUnrecognized-kind error carrying the content type. -/
theorem stability_response_handling :
    ∀ (b64 : String → Except String (List Nat)) (key : String) (r : StabilityResponse),
      key ≠ "" →
      ((r.status ≠ 200 →
        _stability_img2img b64 key r = .err (.stabilityHTTP r.status r.bodyText) ∧
        (ImageGenError.stabilityHTTP r.status r.bodyText).kind = .providerHTTP ∧
        (ImageGenError.stabilityHTTP r.status r.bodyText).message
          = "Stability error " ++ toString r.status ++ ": " ++ r.bodyText) ∧
      (r.status = 200 → strContains r.contentType "application/json" = true →
        ((∀ s bs rest, r.artifactsJson = .ok (⟨some s⟩ :: rest) → s ≠ "" →
            b64 s = .ok bs → _stability_img2img b64 key r = .ok bs) ∧
         (r.artifactsJson = .ok [] →
            _stability_img2img b64 key r = .err .stabilityEmpty ∧
            ImageGenError.stabilityEmpty.kind = .providerEmpty) ∧
         (∀ rest, r.artifactsJson = .ok (⟨some ""⟩ :: rest) →
            _stability_img2img b64 key r = .err .stabilityEmpty) ∧
         (∀ rest, r.artifactsJson = .ok (⟨none⟩ :: rest) →
            _stability_img2img b64 key r = .err .stabilityEmpty))) ∧
      (r.status = 200 → strContains r.contentType "application/json" = false →
        pyStartsWith r.contentType "image/" = true →
        _stability_img2img b64 key r = .ok r.bodyBytes) ∧
      (r.status = 200 → strContains r.contentType "application/json" = false →
        pyStartsWith r.contentType "image/" = false →
        _stability_img2img b64 key r = .err (.stabilityUnrecognized r.contentType) ∧
        (ImageGenError.stabilityUnrecognized r.contentType).kind = .providerUnrecognized)) := by
  intro b64 key r hkey
  refine ⟨?_, ?_, ?_, ?_⟩
  · intro hs
    refine ⟨?_, rfl, rfl⟩
    simp [_stability_img2img, hkey, hs]
  · intro h200 hjson
    refine ⟨?_, ?_, ?_, ?_⟩
    · intro s bs rest hart hsne hb64
      simp [_stability_img2img, hkey, h200, hjson, hart, hsne, hb64]
    · intro hart
      exact ⟨by simp [_stability_img2img, hkey, h200, hjson, hart], rfl⟩
    · intro rest hart
      simp [_stability_img2img, hkey, h200, hjson, hart]
    · intro rest hart
      simp [_stability_img2img, hkey, h200, hjson, hart]
  · intro h200 hjson himg
    simp [_stability_img2img, hkey, h200, hjson, himg]
  · intro h200 hjson himg
    exact ⟨by simp [_stability_img2img, hkey, h200, hjson, himg], rfl⟩

theorem stability_response_handling_witness :
    _stability_img2img b64StubC5 "key" ⟨403, "denied", "application/json", [], .ok []⟩
        = .err (.stabilityHTTP 403 "denied") ∧
    _stability_img2img b64StubC5 "key" ⟨200, "", "application/json", [], .ok [⟨some "QQ=="⟩]⟩
        = .ok [] := by
  constructor
  · exact ((stability_response_handling b64StubC5 "key"
      ⟨403, "denied", "application/json", [], .ok []⟩ (by decide)).1 (by decide)).1
  · exact ((stability_response_handling b64StubC5 "key"
      ⟨200, "", "application/json", [], .ok [⟨some "QQ=="⟩]⟩ (by decide)).2.1 rfl
      (by decide)).1 "QQ==" [] [] rfl (by decide) rfl

/-- C5 counterexample: an artifact whose base64 field is present but empty
is reported as ProviderEmpty, not decoded as the claim as stated demands
(the decode of "" would be ok []). -/
theorem stability_empty_base64_refutes :
    _stability_img2img b64StubC5 "key" ⟨200, "", "application/json", [], .ok [⟨some ""⟩]⟩
        = .err .stabilityEmpty ∧
    GenOutcome.err .stabilityEmpty ≠ .ok [] ∧
    b64StubC5 "" = .ok [] := by
  refine ⟨by decide, by decide, rfl⟩

/-- C6 (amended): the OpenAI adapter fails with the ProviderHTTP-kind error
carrying status and body on every non-200 response; on 200 it parses in
fixed priority order: a non-empty inline base64 field is decoded (a decode
failure becomes the ProviderDecode-kind error); else a non-empty temporary
URL field is fetched, every fetch failure becoming the ProviderFetch-kind
error; else it fails with a ProviderEmpty-kind error (also when the data
list itself is empty). -/
theorem openai_response_priority :
    ∀ (b64 fetch : String → Except String (List Nat)) (key : String) (r : OpenAIResponse),
      key ≠ "" →
      ((r.status ≠ 200 →
        _openai_img_edit b64 fetch key r = .err (.openaiHTTP r.status r.bodyText) ∧
        (ImageGenError.openaiHTTP r.status r.bodyText).kind = .providerHTTP ∧
        (ImageGenError.openaiHTTP r.status r.bodyText).message
          = "OpenAI error " ++ toString r.status ++ ": " ++ r.bodyText) ∧
      (∀ first rest, r.status = 200 → r.dataJson = .ok (first :: rest) →
        ((∀ s bs, first.b64_json = some s → s ≠ "" → b64 s = .ok bs →
            _openai_img_edit b64 fetch key r = .ok bs) ∧
         (∀ s m, first.b64_json = some s → s ≠ "" → b64 s = .error m →
            _openai_img_edit b64 fetch key r = .err (.openaiB64Decode m) ∧
            (ImageGenError.openaiB64Decode m).kind = .providerDecode) ∧
         (∀ u bs, first.b64_json.getD "" = "" → first.url = some u → u ≠ "" →
            fetch u = .ok bs → _openai_img_edit b64 fetch key r = .ok bs) ∧
         (∀ u m, first.b64_json.getD "" = "" → first.url = some u → u ≠ "" →
            fetch u = .error m →
            _openai_img_edit b64 fetch key r = .err (.openaiFetch m) ∧
            (ImageGenError.openaiFetch m).kind = .providerFetch) ∧
         (first.b64_json.getD "" = "" → first.url.getD "" = "" →
            _openai_img_edit b64 fetch key r = .err .openaiEmpty ∧
            ImageGenError.openaiEmpty.kind = .providerEmpty))) ∧
      (r.status = 200 → r.dataJson = .ok [] →
        _openai_img_edit b64 fetch key r = .err .openaiNoData ∧
        ImageGenError.openaiNoData.kind = .providerEmpty)) := by
  intro b64 fetch key r hkey
  refine ⟨?_, ?_, ?_⟩
  · intro hs
    exact ⟨by simp [_openai_img_edit, hkey, hs], rfl, rfl⟩
  · intro first rest h200 hdata
    refine ⟨?_, ?_, ?_, ?_, ?_⟩
    · intro s bs hb hsne hb64
      simp [_openai_img_edit, hkey, h200, hdata, hb, hsne, hb64]
    · intro s m hb hsne hb64
      exact ⟨by simp [_openai_img_edit, hkey, h200, hdata, hb, hsne, hb64], rfl⟩
    · intro u bs hb hu hune hfetch
      simp [_openai_img_edit, hkey, h200, hdata, hb, hu, hune, hfetch]
    · intro u m hb hu hune hfetch
      exact ⟨by simp [_openai_img_edit, hkey, h200, hdata, hb, hu, hune, hfetch], rfl⟩
    · intro hb hu
      exact ⟨by simp [_openai_img_edit, hkey, h200, hdata, hb, hu], rfl⟩
  · intro h200 hdata
    exact ⟨by simp [_openai_img_edit, hkey, h200, hdata], rfl⟩

theorem openai_response_priority_witness :
    _openai_img_edit b64StubC6 fetchStubC6 "key" ⟨500, "boom", .ok []⟩
        = .err (.openaiHTTP 500 "boom") ∧
    _openai_img_edit b64StubC6 fetchStubC6 "key"
        ⟨200, "", .ok [⟨none, some "http://u"⟩]⟩ = .ok [7] := by
  constructor
  · exact ((openai_response_priority b64StubC6 fetchStubC6 "key"
      ⟨500, "boom", .ok []⟩ (by decide)).1 (by decide)).1
  · exact ((openai_response_priority b64StubC6 fetchStubC6 "key"
      ⟨200, "", .ok [⟨none, some "http://u"⟩]⟩ (by decide)).2.1
      ⟨none, some "http://u"⟩ [] rfl rfl).2.2.1 "http://u" [7] rfl rfl (by decide) rfl

/-- C6 counterexample: a data item whose b64_json field is present but empty
falls through to the URL fetch (which here returns [7]) instead of being
decoded (the decode of "" would be ok []), refuting the claim as stated. -/
theorem openai_empty_base64_refutes :
    _openai_img_edit b64StubC6 fetchStubC6 "key"
        ⟨200, "", .ok [⟨some "", some "http://u"⟩]⟩ = .ok [7] ∧
    (GenOutcome.ok [7]) ≠ .ok [] ∧
    b64StubC6 "" = .ok [] := by
  refine ⟨by decide, by decide, rfl⟩

/-- C7: a caught provider error produces exactly one of the two fixed
notices, the content-restriction notice iff the lowercased error text
contains "moderation", "safety" or "rejected", and the generic transient
notice otherwise; both notices are fixed string constants, so raw provider
error text never reaches the requester. -/
theorem error_notice_classification :
    ∀ (e : ImageGenError) (p : String),
      ((_generate_and_reply (.err e) p).replies = [.text CONTENT_RESTRICTED_NOTICE] ∨
       (_generate_and_reply (.err e) p).replies = [.text TRANSIENT_FAILURE_NOTICE]) ∧
      ((_generate_and_reply (.err e) p).replies = [.text CONTENT_RESTRICTED_NOTICE] ↔
        moderationSniff e.message = true) ∧
      (_generate_and_reply (.err e) p).replies.length = 1 := by
  intro e p
  have hne : TRANSIENT_FAILURE_NOTICE ≠ CONTENT_RESTRICTED_NOTICE := by decide
  by_cases h : moderationSniff e.message = true
  · simp [_generate_and_reply, h]
  · simp [_generate_and_reply, h, hne]

theorem error_notice_classification_witness :
    ((_generate_and_reply (.err (.openaiHTTP 400 "Moderation blocked")) "cat").replies
       = [.text CONTENT_RESTRICTED_NOTICE]) ∧
    ((_generate_and_reply (.err (.openaiHTTP 500 "boom")) "cat").replies
       = [.text TRANSIENT_FAILURE_NOTICE]) := by
  constructor
  · exact (error_notice_classification (.openaiHTTP 400 "Moderation blocked") "cat").2.1.2
      (by decide)
  · rcases (error_notice_classification (.openaiHTTP 500 "boom") "cat").1 with h | h
    · exact absurd ((error_notice_classification (.openaiHTTP 500 "boom") "cat").2.1.1 h)
        (by decide)
    · exact h

/-- C8: the free-form-text entry point dispatches only in one-to-one
conversations: a delivery with no message (how a broadcast channel_post
arrives, since the transport leaves update.message unset) or whose message
is in a group or supergroup produces no reply and no provider call; in a
private conversation an allowed requester with non-empty non-command text
gets the prompt dispatched as the stripped text. -/
theorem free_text_conversation_gate :
    (∀ cfg gen st message,
       (message = none ∨ ∃ m, message = some m ∧
          (m.chatType = ChatType.group ∨ m.chatType = ChatType.supergroup)) →
       (handle_text cfg gen st message).1.replies = [] ∧
       (handle_text cfg gen st message).1.genPrompts = []) ∧
    (∀ cfg gen st (m : Msg), m.chatType = ChatType.privateChat →
       (m.chatId, m.messageId) ∉ st.dedup.seenMsgs →
       _is_allowed_user cfg st.redeemedIds m.userId = true →
       pyStrip (m.text.getD "") ≠ "" →
       pyStartsWith (pyStrip (m.text.getD "")) "/" = false →
       (handle_text cfg gen st (some m)).1
         = _generate_and_reply gen (pyStrip (m.text.getD ""))) := by
  constructor
  · intro cfg gen st message h
    rcases h with rfl | ⟨m, rfl, hgt⟩
    · simp [handle_text, _already_processed_upd]
    · simp only [handle_text]
      split_ifs with h1 h2 <;> simp_all
  · intro cfg gen st m hchat hseen hal hne hslash
    have hfst : (_already_processed st.dedup (m.chatId, m.messageId)).1 = false :=
      already_processed_fst_of_not_mem _ _ hseen
    have htext : ¬ m.text.getD "" = "" := by
      intro h
      rw [h] at hne
      exact hne rfl
    have hgrp : ¬ (m.chatType = ChatType.group ∨ m.chatType = ChatType.supergroup) := by
      rw [hchat]; rintro (h | h) <;> exact ChatType.noConfusion h
    simp only [handle_text, _already_processed_upd, hfst, Bool.false_eq_true, if_false,
      htext, hgrp, hal, Bool.not_true, hne, hslash, or_self, ite_false]

theorem free_text_conversation_gate_witness :
    (handle_text cfgOpenW (.ok [1]) stFreshW (some msgGroupW)).1.replies = [] ∧
    (handle_text cfgOpenW (.ok [1]) stFreshW (some msgDmW)).1
      = _generate_and_reply (.ok [1]) (pyStrip (msgDmW.text.getD "")) := by
  constructor
  · exact (free_text_conversation_gate.1 cfgOpenW (.ok [1]) stFreshW (some msgGroupW)
      (Or.inr ⟨msgGroupW, rfl, Or.inl rfl⟩)).1
  · exact free_text_conversation_gate.2 cfgOpenW (.ok [1]) stFreshW msgDmW rfl (by decide)
      (by decide) (by decide) (by decide)

/-- C9 (amended): an admitted /pic command whose extracted prompt is empty
replies with usage guidance and performs no provider call; admitted
free-form text that strips to empty terminates silently with no reply and
no provider call. -/
theorem noprompt_terminal_behavior :
    (∀ cfg gen st (m : Msg), (m.chatId, m.messageId) ∉ st.dedup.seenMsgs →
       _is_allowed_user cfg st.redeemedIds m.userId = true →
       extract_pic_prompt m.text = "" →
       (pic_cmd cfg gen st m).1 = ⟨[.text USAGE_PIC], []⟩) ∧
    (∀ cfg gen st (m : Msg), (m.chatId, m.messageId) ∉ st.dedup.seenMsgs →
       _is_allowed_user cfg st.redeemedIds m.userId = true →
       pyStrip (m.text.getD "") = "" →
       (handle_text cfg gen st (some m)).1 = ⟨[], []⟩) := by
  constructor
  · intro cfg gen st m hseen hal hprompt
    have hfst : (_already_processed st.dedup (m.chatId, m.messageId)).1 = false :=
      already_processed_fst_of_not_mem _ _ hseen
    simp only [pic_cmd, _already_processed_upd, hfst, Bool.false_eq_true, if_false,
      hal, Bool.not_true, hprompt, if_true]
  · intro cfg gen st m hseen hal hprompt
    have hfst : (_already_processed st.dedup (m.chatId, m.messageId)).1 = false :=
      already_processed_fst_of_not_mem _ _ hseen
    simp only [handle_text, _already_processed_upd, hfst, Bool.false_eq_true, if_false,
      hal, Bool.not_true, hprompt]
    split_ifs <;> simp_all

theorem noprompt_terminal_behavior_witness :
    (pic_cmd cfgOpenW (.ok [1]) stFreshW msgPicEmptyW).1 = ⟨[.text USAGE_PIC], []⟩ :=
  noprompt_terminal_behavior.1 cfgOpenW (.ok [1]) stFreshW msgPicEmptyW (by decide)
    (by decide) (by decide)

/-- C9 counterexample: free-form text " " from an allowed requester in a
private chat is admitted and strips to the empty prompt, yet the handler
replies nothing at all, refuting the claimed usage-guidance reply. -/
theorem noprompt_silent_free_text_refutes :
    (handle_text cfgOpenW (.ok [0]) stFreshW (some msgWsW)).1.replies = [] ∧
    (handle_text cfgOpenW (.ok [0]) stFreshW (some msgWsW)).1.genPrompts = [] ∧
    _is_allowed_user cfgOpenW stFreshW.redeemedIds msgWsW.userId = true ∧
    pyStrip (msgWsW.text.getD "") = "" := by decide

/-- C10: access is monotone over the process lifetime: no handler ever
removes an id from the redeemed set (the configuration is immutable by
construction), so once _is_allowed_user holds for an id it holds after any
sequence of further deliveries. -/
theorem access_monotonicity :
    (∀ cfg st ev, st.redeemedIds ⊆ (stepEvent cfg st ev).2.redeemedIds) ∧
    (∀ cfg st uid evs, _is_allowed_user cfg st.redeemedIds uid = true →
       _is_allowed_user cfg (runEvents cfg st evs).redeemedIds uid = true) := by
  have hstep : ∀ cfg st ev, st.redeemedIds ⊆ (stepEvent cfg st ev).2.redeemedIds := by
    intro cfg st ev
    cases ev with
    | simple t m =>
      rw [stepEvent, simple_cmd_redeemed]
      exact fun y hy => hy
    | redeem m => exact redeem_cmd_redeemed_sub cfg st m
    | pic gen m =>
      rw [stepEvent, pic_cmd_redeemed]
      exact fun y hy => hy
    | freeText gen message =>
      rw [stepEvent, handle_text_redeemed]
      exact fun y hy => hy
  refine ⟨hstep, ?_⟩
  intro cfg st uid evs
  induction evs generalizing st with
  | nil => exact fun h => h
  | cons ev evs ih =>
    intro h
    have h1 : _is_allowed_user cfg (stepEvent cfg st ev).2.redeemedIds uid = true :=
      allowed_mono cfg _ _ (hstep cfg st ev) uid h
    exact ih _ h1

theorem access_monotonicity_witness :
    _is_allowed_user cfgOpenW
      (runEvents cfgOpenW stFreshW [Event.simple "hi" msgPicW]).redeemedIds 5 = true :=
  access_monotonicity.2 cfgOpenW stFreshW 5 [Event.simple "hi" msgPicW] (by decide)

end TangImage
